import Mathlib

/-!
Shallow embedding of the spreadsheet cell model implemented in `src/model.c`.

Modelling conventions:
* C `double` values are modelled as `ℚ`; every arithmetic step the program
  performs on cell values (decimal parsing and addition) is exact on the
  inputs exercised here, so the structural claims are unaffected.
* C strings are modelled as `String`; a possibly-NULL `char *` field is
  modelled as `Option String` with `Option.none` standing for NULL.
* the external display callback `update_cell_display` (declared in
  `interface.h`, which is not part of `src/`) is modelled from the spec:
  the DisplayNotifier receives `(row, col, text)` events, so the state
  carries an event log and the callback appends to it.
* the grid dimensions `NUM_ROWS`/`NUM_COLS` come from `model.h` (not in
  `src/`); the spec fixes no concrete values, so every operation is
  parameterised by `nr nc : ℕ`.
* loops that advance a `char *` cursor are modelled with an explicit fuel
  argument; every loop iteration of the C code consumes at least one
  character (except the one divergence noted at `strtodM`), so fuel
  `length + 1` is always enough, and fuel exhaustion is mapped to the
  non-returning outcome.
-/

/-- C `isspace` in the C locale: space, \t, \n, \v, \f, \r. -/
def isspaceC (c : Char) : Bool :=
  c = ' ' ∨ c = '\t' ∨ c = '\n' ∨ c = '\x0b' ∨ c = '\x0c' ∨ c = '\r'

/-- C `isalpha` in the C locale (ASCII letters). -/
def isalphaC (c : Char) : Bool :=
  ('A' ≤ c ∧ c ≤ 'Z') ∨ ('a' ≤ c ∧ c ≤ 'z')

/-- C `islower` in the C locale. -/
def islowerC (c : Char) : Bool :=
  'a' ≤ c ∧ c ≤ 'z'

/-- Value of a digit run, most significant digit first. -/
def digitsVal (l : List Char) : ℕ :=
  l.foldl (fun a c => 10 * a + (c.toNat - '0'.toNat)) 0

/-- C `strtol(p, &p, 10)` as used at `model.c:279`: at that call site the
cursor is known to stand on a digit, so the whitespace/sign prefix of
`strtol` is never exercised; the digit run is converted and consumed.
`strtol` saturates at `LONG_MAX` on overflow; the saturated value fails the
subsequent bounds check exactly as the unbounded `ℕ` value does, so
saturation is not modelled. -/
def strtolM (l : List Char) : ℕ × List Char :=
  (digitsVal (l.takeWhile Char.isDigit), l.dropWhile Char.isDigit)

/-- Fractional part of a `strtod` subject sequence: a `'.'` followed by a
digit run; otherwise nothing is consumed. -/
def fracPart : List Char → List Char × List Char
  | '.' :: t => (t.takeWhile Char.isDigit, t.dropWhile Char.isDigit)
  | l => ([], l)

/-- An optional sign at the head of a `strtod`/exponent subject
sequence: returns whether the value is negated, and the input after the
sign character. -/
def sign_split : List Char → Bool × List Char
  | '-' :: t => (true, t)
  | '+' :: t => (false, t)
  | l => (false, l)

/-- Exponent part of a `strtod` subject sequence: `e`/`E`, an optional
sign and a digit run; if no digit follows, nothing is consumed
(`strtod` backtracks to before the `e`). -/
def expScan : List Char → ℤ × List Char
  | [] => (0, [])
  | c :: t =>
    if c = 'e' ∨ c = 'E' then
      let p := sign_split t
      let ed := p.2.takeWhile Char.isDigit
      if ed.isEmpty then (0, c :: t)
      else ((if p.1 then -1 else 1) * (digitsVal ed : ℤ), p.2.dropWhile Char.isDigit)
    else (0, c :: t)

/-- C `isxdigit` in the C locale. -/
def isHexDigitC (c : Char) : Bool :=
  c.isDigit ∨ ('A' ≤ c ∧ c ≤ 'F') ∨ ('a' ≤ c ∧ c ≤ 'f')

/-- Value of one hexadecimal digit. -/
def hexVal (c : Char) : ℕ :=
  if c.isDigit then c.toNat - '0'.toNat
  else if 'a' ≤ c then c.toNat - 'a'.toNat + 10
  else c.toNat - 'A'.toNat + 10

/-- Value of a hexadecimal digit run, most significant digit first. -/
def hexDigitsVal (l : List Char) : ℕ :=
  l.foldl (fun a c => 16 * a + hexVal c) 0

/-- Fractional part of a hexadecimal significand: a `'.'` followed by a
hex-digit run; otherwise nothing is consumed. -/
def hexFracPart : List Char → List Char × List Char
  | '.' :: t => (t.takeWhile isHexDigitC, t.dropWhile isHexDigitC)
  | l => ([], l)

/-- Binary-exponent part of a hexadecimal `strtod` subject sequence:
`p`/`P`, an optional sign and a decimal digit run; if no digit follows,
nothing is consumed (`strtod` backtracks to before the `p`). -/
def binExpScan : List Char → ℤ × List Char
  | [] => (0, [])
  | c :: t =>
    if c = 'p' ∨ c = 'P' then
      let p := sign_split t
      let ed := p.2.takeWhile Char.isDigit
      if ed.isEmpty then (0, c :: t)
      else ((if p.1 then -1 else 1) * (digitsVal ed : ℤ), p.2.dropWhile Char.isDigit)
    else (0, c :: t)

/-- The decimal branch of `strtod`, after whitespace and sign: digits
with at most one `'.'` and at least one digit, then an optional decimal
exponent.  `Option.none` means no conversion. -/
def strtodDec (neg : Bool) (l2 : List Char) : Option (ℚ × List Char) :=
  let d1 := l2.takeWhile Char.isDigit
  let l3 := l2.dropWhile Char.isDigit
  let fr := fracPart l3
  if d1.isEmpty ∧ fr.1.isEmpty then Option.none
  else
    let ex := expScan fr.2
    let m : ℤ := ((digitsVal d1 * 10 ^ fr.1.length + digitsVal fr.1 : ℕ) : ℤ)
    let m2 : ℤ := if neg then -m else m
    let sc : ℤ := ex.1 - (fr.1.length : ℤ)
    let v : ℚ :=
      if 0 ≤ sc then mkRat (m2 * (10 : ℤ) ^ sc.toNat) 1
      else mkRat m2 (10 ^ (-sc).toNat)
    some (v, ex.2)

/-- The C99 hexadecimal branch of `strtod`, applied to the input after a
`0x`/`0X` prefix: hex digits with at most one `'.'` and at least one hex
digit, then an optional binary exponent; the value is the significand
times 2 to the exponent, exact in `ℚ`.  `Option.none` means the prefix
is not followed by any hex digit, in which case `strtod` falls back to
the decimal form (consuming just the `0`). -/
def strtodHex (neg : Bool) (t : List Char) : Option (ℚ × List Char) :=
  let d1 := t.takeWhile isHexDigitC
  let l3 := t.dropWhile isHexDigitC
  let fr := hexFracPart l3
  if d1.isEmpty ∧ fr.1.isEmpty then Option.none
  else
    let ex := binExpScan fr.2
    let m : ℤ := ((hexDigitsVal d1 * 16 ^ fr.1.length + hexDigitsVal fr.1 : ℕ) : ℤ)
    let m2 : ℤ := if neg then -m else m
    let sc : ℤ := ex.1 - 4 * (fr.1.length : ℤ)
    let v : ℚ :=
      if 0 ≤ sc then mkRat (m2 * (2 : ℤ) ^ sc.toNat) 1
      else mkRat m2 (2 ^ (-sc).toNat)
    some (v, ex.2)

/-- C `strtod(p, &q)` (C99): optional whitespace, optional sign, then
either the hexadecimal form `0x`/`0X` followed by hex digits (falling
back to the decimal parse of the leading `0` when no hex digit follows
the prefix) or the decimal form.  Returns the parsed value and the rest
of the input; `Option.none` models "no conversion performed" (`strtod`
then returns 0 and leaves the end pointer at the start).  The hex form
is reachable inside a validated formula — `=0X1A` reaches `strtod`
through the scan's digit branch and evaluates to 26 — so it must be
modelled.  The infinity / nan forms are not: they start with a letter,
which the scan's `isalpha` branch intercepts before `strtod` runs, and
`is_valid_num` admits only digits and `'.'`. -/
def strtodM (l : List Char) : Option (ℚ × List Char) :=
  let l1 := l.dropWhile isspaceC
  let sp := sign_split l1
  match sp.2 with
  | '0' :: x :: t =>
    if x = 'x' ∨ x = 'X' then
      match strtodHex sp.1 t with
      | some q => some q
      | Option.none => strtodDec sp.1 sp.2
    else strtodDec sp.1 sp.2
  | _ => strtodDec sp.1 sp.2

/-- Exact rational addition, written with `mkRat` so that it is
kernel-computable (the library's `Rat.add` is `@[irreducible]`); equal to
`· + ·` by `qadd_eq_add` below.  Used to model the accumulation
`*result += double_assist_pop(&numAssist)` of `model.c:307`. -/
def qadd (a b : ℚ) : ℚ :=
  mkRat (a.num * (b.den : ℤ) + b.num * (a.den : ℤ)) (a.den * b.den)

/-- The drain loop of `model.c:306`: `*result` starts at 0 and the stack
is popped top (list head) first, each value added to the accumulator. -/
def sumDrain (stack : List ℚ) : ℚ :=
  stack.foldl qadd 0

/-- The value `strtod(text, NULL)` assigns, as used by `set_num_value`. -/
def strtodVal (text : String) : ℚ :=
  match strtodM text.toList with
  | some p => p.1
  | Option.none => 0

/-- `CELL_TYPE` of `model.c:93`. -/
inductive CELL_TYPE where
  | none
  | str
  | num
  | eqn
deriving DecidableEq

/-- `struct cell` of `model.c:105`.  `strVal = Option.none` models a NULL
`char *strVal`. -/
structure cell where
  type : CELL_TYPE
  numVal : ℚ
  strVal : Option String
deriving DecidableEq

/-- The grid `cell sheet[NUM_ROWS][NUM_COLS]`, indexed `sheet r c`.  Only
indices below the dimensions are ever read or written by the program. -/
abbrev Sheet := ℕ → ℕ → cell

/-- Functional update of one grid entry. -/
def writeCell (s : Sheet) (r c : ℕ) (v : cell) : Sheet :=
  fun i j => if i = r ∧ j = c then v else s i j

/-- Program state: the grid plus the log of `update_cell_display`
notifications.  Modelled from the spec: `update_cell_display` is the
DisplayNotifier callback declared in `interface.h` (not under `src/`);
the spec says it receives the post-update textual representation of a
changed cell, so each call is recorded as a `(row, col, text)` event. -/
structure SpreadState where
  sheet : Sheet
  log : List (ℕ × ℕ × String)

/-- `cell sheet[NUM_ROWS][NUM_COLS] = {0}`: zero-initialisation gives every
cell type `none` (= 0), value 0 and a NULL string. -/
def emptyCell : cell := cell.mk CELL_TYPE.none 0 Option.none

def emptySheet : Sheet := fun _ _ => emptyCell

def initState : SpreadState := SpreadState.mk emptySheet []

/-- The DisplayNotifier call `update_cell_display(row, col, text)`. -/
def update_cell_display (st : SpreadState) (r c : ℕ) (text : String) : SpreadState :=
  SpreadState.mk st.sheet (st.log ++ [(r, c, text)])

/-- `skip_whitespace` of `model.c:119`. -/
def skip_whitespace (l : List Char) : List Char :=
  l.dropWhile isspaceC

/-- The character loop of `is_valid_num` (`model.c:139`), with its two
flags.  The C loop inspects every remaining character; it neither skips
embedded whitespace nor consumes more than one character per step, so the
recursion is structural. -/
def ivnLoop : List Char → Bool → Bool → Bool
  | [], hasDigit, _ => hasDigit
  | c :: rest, hasDigit, hasDot =>
    if c.isDigit then ivnLoop rest true hasDot
    else if c = '.' then
      if hasDot then false else ivnLoop rest hasDigit true
    else false

/-- `is_valid_num` of `model.c:127`.  The `str == NULL` guard of the C code
has no counterpart: a Lean `String` is never NULL. -/
def is_valid_num (s : String) : Bool :=
  ivnLoop (skip_whitespace s.toList) false false

/-- The character loop of `is_valid_formula` (`model.c:172`), fuelled.
Each iteration runs `skip_whitespace` and then examines one character, so
it consumes at least one character; fuel `length + 1` is always enough.
Note the C quirk: when the skip lands on the terminating `'\0'`, the
character falls through every test into the `else` branch and the function
returns `false` — a formula with trailing whitespace is invalid. -/
def ivfLoopF : ℕ → List Char → Bool
  | 0, _ => false
  | _ + 1, [] => true
  | fuel + 1, c :: rest =>
    match skip_whitespace (c :: rest) with
    | [] => false
    | d :: rest2 =>
      if isalphaC d then
        if islowerC d then false else ivfLoopF fuel rest2
      else if d.isDigit ∨ d = '.' ∨ d = '+' then ivfLoopF fuel rest2
      else false

/-- `is_valid_formula` of `model.c:160`. -/
def is_valid_formula (s : String) : Bool :=
  match skip_whitespace s.toList with
  | '=' :: rest => ivfLoopF (rest.length + 1) rest
  | _ => false

/-- The failure modes of formula evaluation.  The C function collapses all
of them into `return false`; the constructors record which `return false`
site fired (spec taxonomy: InvalidFormulaSyntax, OutOfRange, InvalidToken,
ArityMismatch; `badRef` is the `model.c:268` letter-without-digit site). -/
inductive EvalErr where
  | invalidFormula
  | badRef
  | outOfRange
  | invalidChar
  | arity
deriving DecidableEq

/-- Outcome of the scanning loop of `parse_and_calculate_formula`. -/
inductive ScanOut where
  | done (stack : List ℚ) (opcount : ℕ)
  | err (e : EvalErr)
  | hang
  | fuelOut
deriving DecidableEq

/-- Result of `parse_and_calculate_formula`: the C function returns `bool`
plus an out-parameter; `ok v` is `true` with `*result = v`, `err e` is
`false` (the constructor records the failing site), and `hang` is the
path on which the C loop never terminates (see `calcLoopF`). -/
inductive EvalResult where
  | ok (v : ℚ)
  | err (e : EvalErr)
  | hang
deriving DecidableEq

/-- The scanning loop of `parse_and_calculate_formula` (`model.c:258`),
fuelled; the stack of operands grows by cons (`double_assist_push`).
When `strtod` performs no conversion (input `'.'` not followed by a
digit) the C loop does not advance its cursor and loops forever: that is
the `hang` outcome.  Every other iteration consumes at least one
character, so fuel `length + 1` is enough and `fuelOut` is unreachable
from `parse_and_calculate_formula`. -/
def calcLoopF (nr nc : ℕ) (sheet : Sheet) : ℕ → List Char → List ℚ → ℕ → ScanOut
  | 0, _, _, _ => ScanOut.fuelOut
  | _ + 1, [], stack, k => ScanOut.done stack k
  | fuel + 1, c :: rest, stack, k =>
    if c = '=' ∨ c = ' ' then calcLoopF nr nc sheet fuel rest stack k
    else if c = '+' then calcLoopF nr nc sheet fuel rest stack (k + 1)
    else if isalphaC c then
      match rest with
      | [] => ScanOut.err EvalErr.badRef
      | d :: _ =>
        if d.isDigit then
          let p := strtolM rest
          let curRow : ℤ := (p.1 : ℤ) - 1
          let curCol : ℤ := (c.toNat : ℤ) - ('A'.toNat : ℤ)
          if curRow < 0 ∨ (nr : ℤ) ≤ curRow ∨ curCol < 0 ∨ (nc : ℤ) ≤ curCol then
            ScanOut.err EvalErr.outOfRange
          else
            calcLoopF nr nc sheet fuel p.2
              ((sheet curRow.toNat curCol.toNat).numVal :: stack) k
        else ScanOut.err EvalErr.badRef
    else if c.isDigit ∨ c = '.' then
      match strtodM (c :: rest) with
      | some q => calcLoopF nr nc sheet fuel q.2 (q.1 :: stack) k
      | Option.none => ScanOut.hang
    else ScanOut.err EvalErr.invalidChar

/-- `parse_and_calculate_formula` of `model.c:242`.  The final summation
drains the stack by popping; popping order is irrelevant for `ℚ`
addition, so the result is the list sum of the stack. -/
def parse_and_calculate_formula (nr nc : ℕ) (sheet : Sheet) (text : String) : EvalResult :=
  if is_valid_formula text = false then EvalResult.err EvalErr.invalidFormula
  else
    match calcLoopF nr nc sheet (text.toList.length + 1) text.toList [] 0 with
    | ScanOut.done stack k =>
      if stack.length = k + 1 then EvalResult.ok (sumDrain stack)
      else EvalResult.err EvalErr.arity
    | ScanOut.err e => EvalResult.err e
    | ScanOut.hang => EvalResult.hang
    | ScanOut.fuelOut => EvalResult.hang

/-- The operand sequence of a formula as the *amended* claim C5
describes it, written independently of the C scan's stack/opcount
machinery — a literal token contributes the value `strtod` parses (its
decimal value for a plain decimal literal; `strtod`'s exponent and C99
hexadecimal forms are also accepted, which is what the counterexample to
the original claim exhibits); a cell reference is a single uppercase
letter `A..Z` naming column `0..25` followed by a 1-based digit run
naming the row after subtracting 1, and contributes the referenced
cell's current numeric value (`numVal`), not its display text.  `=`,
`' '` and `+` separate operands.  Used as the specification side of the
refinement theorem for the amended claim C5; the original claim's
decimal-literal-only reading is `claimOpF` below. -/
def specOpF (nr nc : ℕ) (sheet : Sheet) : ℕ → List Char → Option (List ℚ)
  | 0, _ => Option.none
  | _ + 1, [] => some []
  | fuel + 1, c :: rest =>
    if c = '=' ∨ c = ' ' then specOpF nr nc sheet fuel rest
    else if c = '+' then specOpF nr nc sheet fuel rest
    else if 'A' ≤ c ∧ c ≤ 'Z' then
      let ds := rest.takeWhile Char.isDigit
      if ds.isEmpty then Option.none
      else
        let n := digitsVal ds
        let colIdx := c.toNat - 'A'.toNat
        if 1 ≤ n ∧ n - 1 < nr ∧ colIdx < nc then
          match specOpF nr nc sheet fuel (rest.dropWhile Char.isDigit) with
          | some ops => some ((sheet (n - 1) colIdx).numVal :: ops)
          | Option.none => Option.none
        else Option.none
    else if c.isDigit ∨ c = '.' then
      match strtodM (c :: rest) with
      | some q =>
        match specOpF nr nc sheet fuel q.2 with
        | some ops => some (q.1 :: ops)
        | Option.none => Option.none
      | Option.none => Option.none
    else Option.none

/-- Spec-side operand sequence of a whole formula (see `specOpF`). -/
def specOperands (nr nc : ℕ) (sheet : Sheet) (text : String) : Option (List ℚ) :=
  specOpF nr nc sheet (text.toList.length + 1) text.toList

/-- Modelled from the spec: a *decimal literal* exactly as claim C5 and
spec 4.2 word it — digits with at most one decimal point and at least
one digit, no sign, no exponent, no hexadecimal form — together with its
parsed decimal value.  Used only to state the counterexample to the
original claim C5. -/
def decLitScan (l : List Char) : Option (ℚ × List Char) :=
  let d1 := l.takeWhile Char.isDigit
  let l3 := l.dropWhile Char.isDigit
  let fr := fracPart l3
  if d1.isEmpty ∧ fr.1.isEmpty then Option.none
  else
    let m : ℤ := ((digitsVal d1 * 10 ^ fr.1.length + digitsVal fr.1 : ℕ) : ℤ)
    some (mkRat m (10 ^ fr.1.length), fr.2)

/-- Modelled from the spec: the operand sequence of the *original* claim
C5, read literally — each operand is either a decimal literal
(`decLitScan`, contributing its parsed decimal value) or a cell
reference decoded as in the claim, contributing the referenced cell's
`numVal`.  Used only to state the counterexample to the original
claim C5. -/
def claimOpF (nr nc : ℕ) (sheet : Sheet) : ℕ → List Char → Option (List ℚ)
  | 0, _ => Option.none
  | _ + 1, [] => some []
  | fuel + 1, c :: rest =>
    if c = '=' ∨ c = ' ' then claimOpF nr nc sheet fuel rest
    else if c = '+' then claimOpF nr nc sheet fuel rest
    else if 'A' ≤ c ∧ c ≤ 'Z' then
      let ds := rest.takeWhile Char.isDigit
      if ds.isEmpty then Option.none
      else
        let n := digitsVal ds
        let colIdx := c.toNat - 'A'.toNat
        if 1 ≤ n ∧ n - 1 < nr ∧ colIdx < nc then
          match claimOpF nr nc sheet fuel (rest.dropWhile Char.isDigit) with
          | some ops => some ((sheet (n - 1) colIdx).numVal :: ops)
          | Option.none => Option.none
        else Option.none
    else if c.isDigit ∨ c = '.' then
      match decLitScan (c :: rest) with
      | some q =>
        match claimOpF nr nc sheet fuel q.2 with
        | some ops => some (q.1 :: ops)
        | Option.none => Option.none
      | Option.none => Option.none
    else Option.none

/-- Operand sequence of a whole formula under the original claim C5's
decimal-literal reading (see `claimOpF`). -/
def claimOperands (nr nc : ℕ) (sheet : Sheet) (text : String) : Option (List ℚ) :=
  claimOpF nr nc sheet (text.toList.length + 1) text.toList

def MAX_LEN : ℕ := 256

/-- Models `snprintf(buf, MAX_LEN, "%lg", result)` (`model.c:360`).
`%lg` prints an integral double of magnitude below 10^6 as its plain
decimal digits, which is the only formatting exercised by the theorems
below; other magnitudes (6-significant-digit rounding, exponent
notation) fall back to an exact `num/den` rendering that no theorem
relies on. -/
def fmtLG (q : ℚ) : String :=
  if q.den = 1 ∧ q.num.natAbs < 1000000 then
    (if q.num < 0 then ("-") else ("")) ++ toString q.num.natAbs
  else toString q.num ++ ("/") ++ toString q.den

/-- `set_num_value` of `model.c:198`: frees the old string, stores type
`num` and the `strtod` value, and sets `strVal` to NULL. -/
def set_num_value (st : SpreadState) (r c : ℕ) (text : String) : SpreadState :=
  SpreadState.mk
    (writeCell st.sheet r c (cell.mk CELL_TYPE.num (strtodVal text) Option.none))
    st.log

/-- `set_string_value` of `model.c:213`: stores type `str`, value 0 and a
copy of the text. -/
def set_string_value (st : SpreadState) (r c : ℕ) (text : String) : SpreadState :=
  SpreadState.mk
    (writeCell st.sheet r c (cell.mk CELL_TYPE.str 0 (some text)))
    st.log

/-- `initialize_cell` of `model.c:229`. -/
def initialize_cell (st : SpreadState) (r c : ℕ) : SpreadState :=
  if (st.sheet r c).type = CELL_TYPE.none then
    SpreadState.mk (writeCell st.sheet r c (cell.mk CELL_TYPE.num 0 (some ("")))) st.log
  else st

/-- `update_cell_value` of `model.c:318`.  For an `eqn` cell the C code
passes `sheet[row][col].strVal` (never NULL on any reachable `eqn` cell —
`set_cell_value` always stores the text first) to the parser; the model
reads it with `getD ""`.  On success it stores the result, retags the
cell `num`, and reports the *unchanged* `strVal` to the display; on
failure it reports `"ERROR"` and leaves the cell untouched. -/
def update_cell_value (nr nc : ℕ) (st : SpreadState) (r c : ℕ) : Option SpreadState :=
  if (st.sheet r c).type = CELL_TYPE.eqn then
    match parse_and_calculate_formula nr nc st.sheet ((st.sheet r c).strVal.getD ("")) with
    | EvalResult.ok result =>
      let st2 := SpreadState.mk
        (writeCell st.sheet r c (cell.mk CELL_TYPE.num result (st.sheet r c).strVal))
        st.log
      some (update_cell_display st2 r c (((st.sheet r c).strVal).getD ("")))
    | EvalResult.err _ => some (update_cell_display st r c ("ERROR"))
    | EvalResult.hang => Option.none
  else some st

/-- One row of the recalculation scan of `set_cell_value`
(`model.c:372`), columns ascending, skipping the written coordinate. -/
def recalcRow (nr nc r c i : ℕ) (st : SpreadState) : Option SpreadState :=
  List.foldlM
    (fun s j => if i = r ∧ j = c then some s else update_cell_value nr nc s i j)
    st (List.range nc)

/-- The full-grid recalculation scan of `set_cell_value`: rows ascending,
columns ascending inside each row, skipping exactly the written cell.
`ROW_1` and `COL_A` are the first enumerators of the `ROW`/`COL` enums of
`model.h` (zero-based addressing per the spec). -/
def recalcAll (nr nc : ℕ) (st : SpreadState) (r c : ℕ) : Option SpreadState :=
  List.foldlM (fun s i => recalcRow nr nc r c i s) st (List.range nr)

/-- `set_cell_value` of `model.c:336`.  `text == NULL || *text == '\0'`
collapses to `text = ""` (a Lean string is never NULL).  The `Option` is
`Option.none` exactly on the non-terminating path (see `calcLoopF`).
The final `free(text)` of the C code manages memory only and has no
model counterpart. -/
def set_cell_value (nr nc : ℕ) (st : SpreadState) (r c : ℕ) (text : String) :
    Option SpreadState :=
  if text = ("") then some st
  else
    let st1 := initialize_cell st r c
    let step2 : Option (SpreadState × String) :=
      if is_valid_num text then some (set_num_value st1 r c text, text)
      else
        let stS := set_string_value st1 r c text
        if is_valid_formula text then
          match parse_and_calculate_formula nr nc stS.sheet text with
          | EvalResult.ok result =>
            some (SpreadState.mk
              (writeCell stS.sheet r c
                (cell.mk CELL_TYPE.eqn (stS.sheet r c).numVal (stS.sheet r c).strVal))
              stS.log,
              (fmtLG result).take (MAX_LEN - 1))
          | EvalResult.err _ => some (stS, ("ERROR"))
          | EvalResult.hang => Option.none
        else some (stS, text)
    match step2 with
    | some p =>
      match recalcAll nr nc p.1 r c with
      | some st3 => some (update_cell_display st3 r c p.2)
      | Option.none => Option.none
    | Option.none => Option.none

/-- `clear_cell` of `model.c:390`. -/
def clear_cell (st : SpreadState) (r c : ℕ) : SpreadState :=
  if (st.sheet r c).type = CELL_TYPE.none then st
  else
    update_cell_display
      (SpreadState.mk (writeCell st.sheet r c (cell.mk CELL_TYPE.none 0 Option.none)) st.log)
      r c ("")

/-- `get_textual_value` of `model.c:406`.  For a `str`/`num`/`eqn` cell
the C code runs `strncpy(result, strVal, MAX_LEN - 1)`; when `strVal` is
NULL that is undefined behaviour (a crash), modelled as `Option.none`.
(`calloc` failure, which the C code turns into a NULL return, is not
modelled; allocation is assumed to succeed, matching the spec's
abort-on-out-of-memory policy.) -/
def get_textual_value (st : SpreadState) (r c : ℕ) : Option String :=
  match (st.sheet r c).type, (st.sheet r c).strVal with
  | CELL_TYPE.none, _ => some ("")
  | _, some s => some (s.take (MAX_LEN - 1))
  | _, Option.none => Option.none

/-- Modelled from the spec: the decimal-string shape claim C6 asserts —
optional leading *and trailing* whitespace, at most one `'.'`, at least
one digit, no sign, no exponent.  Used only to state the counterexample
for C6. -/
def claimDecimal (s : String) : Bool :=
  let t1 := s.toList.dropWhile isspaceC
  let t := (t1.reverse.dropWhile isspaceC).reverse
  t.all (fun c => c.isDigit ∨ c = '.') ∧
    (t.filter (fun c => c = '.')).length ≤ 1 ∧ t.any Char.isDigit

/-- The decimal-string shape `is_valid_num` actually accepts: optional
*leading* whitespace only, then only digits and at most one `'.'`, with
at least one digit. -/
def leadingWsDecimal (s : String) : Bool :=
  let t := s.toList.dropWhile isspaceC
  t.all (fun c => c.isDigit ∨ c = '.') ∧
    (t.filter (fun c => c = '.')).length ≤ 1 ∧ t.any Char.isDigit

/-- Concrete sheet for the C5 witness: `A1` holds 5. -/
def exSheet5 : Sheet :=
  fun i j => if i = 0 ∧ j = 0 then cell.mk CELL_TYPE.num 5 (some ("5")) else emptyCell

/-- Concrete state for the C4 counterexample: `A1` holds 3 and the cell
at row 1, column 0 holds the formula `=A1` (as a write of `=A1` leaves
it: type `eqn`, value still 0, the formula text stored). -/
def stC4 : SpreadState :=
  SpreadState.mk
    (fun i j =>
      if i = 0 ∧ j = 0 then cell.mk CELL_TYPE.num 3 (some ("3"))
      else if i = 1 ∧ j = 0 then cell.mk CELL_TYPE.eqn 0 (some ("=A1"))
      else emptyCell)
    []

/-- Concrete state for the C10 witness: one `eqn` cell whose stored text
`=+` fails evaluation (arity: one operator, no operands). -/
def stC10 : SpreadState :=
  SpreadState.mk
    (fun i j => if i = 0 ∧ j = 0 then cell.mk CELL_TYPE.eqn 4 (some ("=+")) else emptyCell)
    []

/-- The write sequence of the C3 counterexample on a 2×1 grid:
write 5 to A1, write `=A1` to A2, write 7 to A1 (this recalculates A2 to
7 and retags it `num`), then write 9 to A1 (A2 is no longer `eqn`, so it
is *not* recalculated). -/
def c3chain : Option SpreadState :=
  (set_cell_value 2 1 initState 0 0 ("5")).bind (fun s1 =>
    (set_cell_value 2 1 s1 1 0 ("=A1")).bind (fun s2 =>
      (set_cell_value 2 1 s2 0 0 ("7")).bind (fun s3 =>
        set_cell_value 2 1 s3 0 0 ("9"))))

/-! ## Support lemmas -/

theorem qadd_eq_add (a b : ℚ) : qadd a b = a + b :=
  (Rat.add_def' a b).symm

theorem foldl_qadd_eq (l : List ℚ) : ∀ a : ℚ, l.foldl qadd a = a + l.sum := by
  induction l with
  | nil => intro a; simp [List.foldl]
  | cons x t ih => intro a; simp [List.foldl, qadd_eq_add, ih, List.sum_cons, add_assoc]

theorem sumDrain_eq_sum (l : List ℚ) : sumDrain l = l.sum := by
  simp [sumDrain, foldl_qadd_eq]

theorem writeCell_same (s : Sheet) (r c : ℕ) (v : cell) : writeCell s r c v r c = v := by
  simp [writeCell]

theorem writeCell_other (s : Sheet) (r c : ℕ) (v : cell) (a b : ℕ)
    (h : ¬(a = r ∧ b = c)) : writeCell s r c v a b = s a b := by
  simp [writeCell, h]

theorem update_cell_display_sheet (st : SpreadState) (r c : ℕ) (t : String) :
    (update_cell_display st r c t).sheet = st.sheet := rfl

theorem update_cell_value_sheet_other (nr nc : ℕ) (st st' : SpreadState) (i j a b : ℕ)
    (h : update_cell_value nr nc st i j = some st') (hne : ¬(a = i ∧ b = j)) :
    st'.sheet a b = st.sheet a b := by
  unfold update_cell_value at h
  split at h
  · split at h
    · rw [Option.some.injEq] at h
      subst h
      simp [update_cell_display, writeCell_other _ _ _ _ _ _ hne]
    · rw [Option.some.injEq] at h
      subst h
      rfl
    · exact absurd h (by simp)
  · rw [Option.some.injEq] at h
    subst h
    rfl

theorem foldlM_option_inv {α : Type} (f : SpreadState → α → Option SpreadState)
    (P : SpreadState → Prop)
    (hf : ∀ s a s', P s → f s a = some s' → P s') :
    ∀ (l : List α) (s s' : SpreadState), P s → List.foldlM f s l = some s' → P s' := by
  intro l
  induction l with
  | nil =>
    intro s s' hP h
    simp only [List.foldlM_nil] at h
    cases h
    exact hP
  | cons a t ih =>
    intro s s' hP h
    simp only [List.foldlM_cons] at h
    rcases Option.bind_eq_some.mp h with ⟨s1, h1, h2⟩
    exact ih s1 s' (hf s a s1 hP h1) h2

theorem recalcRow_sheet_at (nr nc r c i : ℕ) (st st' : SpreadState) (w : cell)
    (hP : st.sheet r c = w) (h : recalcRow nr nc r c i st = some st') :
    st'.sheet r c = w := by
  refine foldlM_option_inv _ (fun s => s.sheet r c = w) ?_ (List.range nc) st st' hP h
  intro s j s' hs hstep
  by_cases hij : i = r ∧ j = c
  · rw [if_pos hij, Option.some.injEq] at hstep
    subst hstep
    exact hs
  · rw [if_neg hij] at hstep
    rw [update_cell_value_sheet_other nr nc s s' i j r c hstep]
    · exact hs
    · intro hrc
      exact hij ⟨hrc.1.symm, hrc.2.symm⟩

theorem recalcAll_sheet_at (nr nc : ℕ) (st st' : SpreadState) (r c : ℕ)
    (h : recalcAll nr nc st r c = some st') : st'.sheet r c = st.sheet r c := by
  refine foldlM_option_inv _ (fun s => s.sheet r c = st.sheet r c) ?_ (List.range nr) st st' rfl h
  intro s i s' hs hstep
  exact recalcRow_sheet_at nr nc r c i s s' _ hs hstep

/-! ## Claims C10, C4, C3: the recalculation step `update_cell_value` -/

/-- Claim C10: when the recalculation pass re-evaluates a formula cell and
the evaluation fails, the cell's stored state is unchanged — its type
stays `eqn`, its stored formula text is kept and its numeric value keeps
its previous value; the only effect is an `"ERROR"` display
notification. -/
theorem C10_failed_recalc_preserves_state (nr nc : ℕ) (st : SpreadState) (r c : ℕ)
    (e : EvalErr) (htype : (st.sheet r c).type = CELL_TYPE.eqn)
    (hfail : parse_and_calculate_formula nr nc st.sheet ((st.sheet r c).strVal.getD ("")) =
      EvalResult.err e) :
    update_cell_value nr nc st r c =
      some (SpreadState.mk st.sheet (st.log ++ [(r, c, ("ERROR"))])) := by
  simp [update_cell_value, htype, hfail, update_cell_display]

theorem C10_witness :
    update_cell_value 1 1 stC10 0 0 =
      some (SpreadState.mk stC10.sheet (stC10.log ++ [(0, 0, ("ERROR"))])) :=
  C10_failed_recalc_preserves_state 1 1 stC10 0 0 EvalErr.arity (by decide) (by decide)

/-- Counterexample to claim C4: with `A1 = 3` and the cell at row 1,
column 0 holding formula `=A1`, the recalculation step stores the new
numeric value 3 but notifies the display with the stored formula text
`"=A1"`, not with the formatted result `"3"`; the stored display string
is not updated either. -/
theorem C4_counterexample_notification_is_formula_text :
    (update_cell_value 2 1 stC4 1 0).map (fun s => (s.log, (s.sheet 1 0).strVal)) =
      some ([(1, 0, ("=A1"))], some ("=A1")) ∧
    parse_and_calculate_formula 2 1 stC4.sheet ("=A1") = EvalResult.ok 3 ∧
    fmtLG 3 = ("3") ∧ ("=A1") ≠ ("3") := by
  decide

/-- Claim C4 as amended: when the recalculation pass re-evaluates a
formula cell and evaluation succeeds, the stored numeric value becomes
the new result and the type becomes `num`, but the stored display string
is left unchanged (still the formula text) and the display notification
carries that stored formula text — not the formatted result; on failure
the cell is left untouched and `"ERROR"` is displayed. -/
theorem C4_amended_recalc_updates_value_notifies_stored_text (nr nc : ℕ)
    (st : SpreadState) (r c : ℕ) (htype : (st.sheet r c).type = CELL_TYPE.eqn) :
    (∀ v, parse_and_calculate_formula nr nc st.sheet ((st.sheet r c).strVal.getD ("")) =
        EvalResult.ok v →
      update_cell_value nr nc st r c =
        some (SpreadState.mk
          (writeCell st.sheet r c (cell.mk CELL_TYPE.num v (st.sheet r c).strVal))
          (st.log ++ [(r, c, (st.sheet r c).strVal.getD (""))]))) ∧
    (∀ e, parse_and_calculate_formula nr nc st.sheet ((st.sheet r c).strVal.getD ("")) =
        EvalResult.err e →
      update_cell_value nr nc st r c =
        some (SpreadState.mk st.sheet (st.log ++ [(r, c, ("ERROR"))]))) := by
  constructor
  · intro v hv
    simp [update_cell_value, htype, hv, update_cell_display]
  · intro e he
    simp [update_cell_value, htype, he, update_cell_display]

theorem C4_amended_witness :
    update_cell_value 2 1 stC4 1 0 =
      some (SpreadState.mk
        (writeCell stC4.sheet 1 0 (cell.mk CELL_TYPE.num 3 (stC4.sheet 1 0).strVal))
        (stC4.log ++ [(1, 0, (stC4.sheet 1 0).strVal.getD (""))])) :=
  (C4_amended_recalc_updates_value_notifies_stored_text 2 1 stC4 1 0 (by decide)).1 3 (by decide)

/-- Counterexample to claim C3: on a 2×1 grid, write 5 to `A1`, the
formula `=A1` to the cell below, then 7 to `A1` (the recalculation pass
updates the formula cell to 7 and retags it `num`), then 9 to `A1`.  The
formula cell still stores the formula text `=A1`, and evaluating that
text against the final grid gives 9, but the final write did not
re-evaluate it: its value is still 7.  Recalculation of a formula cell
is therefore not possible on every later write. -/
theorem C3_counterexample_second_write_not_recalculated :
    c3chain.map (fun s => s.sheet 1 0) =
      some (cell.mk CELL_TYPE.num 7 (some ("=A1"))) ∧
    c3chain.map (fun s => parse_and_calculate_formula 2 1 s.sheet ("=A1")) =
      some (EvalResult.ok 9) ∧
    (7 : ℚ) ≠ 9 := by
  decide

/-- Claim C3 as amended: the engine does retain the original formula
string — a successful re-evaluation keeps `strVal` unchanged — and a
cell still tagged `eqn` is re-evaluated; but that successful
re-evaluation retags the cell `num`, and `update_cell_value` leaves any
non-`eqn` cell completely untouched, so a formula cell is re-evaluated
by at most the first later write, not by every later write. -/
theorem C3_amended_recalc_only_while_tagged (nr nc : ℕ) (st : SpreadState) (r c : ℕ) :
    (∀ v, (st.sheet r c).type = CELL_TYPE.eqn →
      parse_and_calculate_formula nr nc st.sheet ((st.sheet r c).strVal.getD ("")) =
        EvalResult.ok v →
      ∃ st', update_cell_value nr nc st r c = some st' ∧
        (st'.sheet r c).strVal = (st.sheet r c).strVal ∧
        (st'.sheet r c).type = CELL_TYPE.num ∧
        (st'.sheet r c).numVal = v) ∧
    ((st.sheet r c).type ≠ CELL_TYPE.eqn → update_cell_value nr nc st r c = some st) := by
  constructor
  · intro v htype hv
    have hupd : update_cell_value nr nc st r c =
        some (update_cell_display
          (SpreadState.mk
            (writeCell st.sheet r c (cell.mk CELL_TYPE.num v (st.sheet r c).strVal)) st.log)
          r c ((st.sheet r c).strVal.getD (""))) := by
      simp [update_cell_value, htype, hv]
    have hcell : ((update_cell_display
        (SpreadState.mk
          (writeCell st.sheet r c (cell.mk CELL_TYPE.num v (st.sheet r c).strVal)) st.log)
        r c ((st.sheet r c).strVal.getD (""))).sheet r c) =
        cell.mk CELL_TYPE.num v (st.sheet r c).strVal := by
      simp [update_cell_display, writeCell_same]
    exact ⟨_, hupd, by rw [hcell], by rw [hcell], by rw [hcell]⟩
  · intro htype
    unfold update_cell_value
    rw [if_neg htype]

theorem C3_amended_witness :
    (update_cell_value 2 1 stC4 1 0).map
        (fun s => ((s.sheet 1 0).type, (s.sheet 1 0).strVal, (s.sheet 1 0).numVal)) =
      some (CELL_TYPE.num, some ("=A1"), (3 : ℚ)) ∧
    update_cell_value 2 1 stC4 0 0 = some stC4 := by
  constructor
  · obtain ⟨st', h1, h2, h3, h4⟩ :=
      (C3_amended_recalc_only_while_tagged 2 1 stC4 1 0).1 3 (by decide) (by decide)
    rw [h1]
    rw [Option.map_some']
    rw [h2, h3, h4]
    decide
  · exact (C3_amended_recalc_only_while_tagged 2 1 stC4 0 0).2 (by decide)

/-! ## Claims C1, C2, C8: the write path `set_cell_value` -/

/-- Claim C1 (the code violates it): writing a plain number stores a
`num` cell whose `strVal` is NULL (`set_num_value` frees the string and
stores NULL), and `get_textual_value` then copies from that NULL string
(undefined behaviour, modelled as `Option.none`).  So a reachable
Numeric cell does *not* hold a non-null display string. -/
theorem C1_plain_number_write_leaves_null_string (nr nc : ℕ) (st : SpreadState)
    (r c : ℕ) (text : String) (st' : SpreadState)
    (hnum : is_valid_num text = true)
    (h : set_cell_value nr nc st r c text = some st') :
    st'.sheet r c = cell.mk CELL_TYPE.num (strtodVal text) Option.none ∧
    get_textual_value st' r c = Option.none := by
  have htext : ¬(text = ("")) := by
    intro he
    rw [he] at hnum
    exact absurd hnum (by decide)
  unfold set_cell_value at h
  rw [if_neg htext] at h
  simp only [hnum, if_true] at h
  cases hrec : recalcAll nr nc (set_num_value (initialize_cell st r c) r c text) r c with
  | none => rw [hrec] at h; exact absurd h (by simp)
  | some st3 =>
    rw [hrec, Option.some.injEq] at h
    subst h
    have hsheet : (update_cell_display st3 r c text).sheet r c =
        cell.mk CELL_TYPE.num (strtodVal text) Option.none := by
      rw [update_cell_display_sheet, recalcAll_sheet_at nr nc _ st3 r c hrec]
      simp [set_num_value, writeCell_same]
    refine ⟨hsheet, ?_⟩
    rw [get_textual_value, hsheet]

theorem C1_witness :
    (set_cell_value 1 1 initState 0 0 ("5")).map
        (fun s => (s.sheet 0 0, get_textual_value s 0 0)) =
      some (cell.mk CELL_TYPE.num (strtodVal ("5")) Option.none, Option.none) := by
  have h1 : (set_cell_value 1 1 initState 0 0 ("5")).isSome = true := by decide
  obtain ⟨st', hst⟩ := Option.isSome_iff_exists.mp h1
  have h := C1_plain_number_write_leaves_null_string 1 1 initState 0 0 ("5") st'
    (by decide) hst
  rw [hst, Option.map_some']
  rw [h.1, h.2]

/-- Counterexample to claim C2: writing the successfully evaluating
formula `=1+2` to the empty 1×1 grid returns with the written cell still
tagged `eqn` — the transient Formula tag *does* persist past the end of
the write, and the cell has not collapsed to Numeric. -/
theorem C2_counterexample_formula_tag_persists :
    (set_cell_value 1 1 initState 0 0 ("=1+2")).map (fun s => (s.sheet 0 0).type) =
      some CELL_TYPE.eqn ∧
    CELL_TYPE.eqn ≠ CELL_TYPE.num := by
  decide

/-- Claim C2 as amended: for a write whose text passes the formula
grammar and evaluates successfully, by the time the write returns the
written cell is tagged `eqn` (not Numeric), its numeric value is 0 (set
by `set_string_value`, not the computed result), and its stored string
is the original formula text; the formatted result appears only in the
display notification for the written cell, which is the final
notification of the write.  The tag collapses to `num` only during a
later write's recalculation pass. -/
theorem C2_amended_formula_write_keeps_eqn_tag (nr nc : ℕ) (st : SpreadState)
    (r c : ℕ) (text : String) (v : ℚ) (st' : SpreadState)
    (hnum : is_valid_num text = false)
    (hform : is_valid_formula text = true)
    (hok : parse_and_calculate_formula nr nc
        (set_string_value (initialize_cell st r c) r c text).sheet text = EvalResult.ok v)
    (h : set_cell_value nr nc st r c text = some st') :
    st'.sheet r c = cell.mk CELL_TYPE.eqn 0 (some text) ∧
    (∃ pre, st'.log = pre ++ [(r, c, (fmtLG v).take (MAX_LEN - 1))]) := by
  have htext : ¬(text = ("")) := by
    intro he
    rw [he] at hform
    exact absurd hform (by decide)
  unfold set_cell_value at h
  rw [if_neg htext] at h
  simp only [hnum, hform, if_true, Bool.false_eq_true, if_false, hok] at h
  cases hrec : recalcAll nr nc
      (SpreadState.mk
        (writeCell (set_string_value (initialize_cell st r c) r c text).sheet r c
          (cell.mk CELL_TYPE.eqn
            ((set_string_value (initialize_cell st r c) r c text).sheet r c).numVal
            ((set_string_value (initialize_cell st r c) r c text).sheet r c).strVal))
        (set_string_value (initialize_cell st r c) r c text).log)
      r c with
  | none => rw [hrec] at h; exact absurd h (by simp)
  | some st3 =>
    rw [hrec, Option.some.injEq] at h
    subst h
    constructor
    · rw [update_cell_display_sheet, recalcAll_sheet_at nr nc _ st3 r c hrec]
      simp [writeCell_same, set_string_value]
    · exact ⟨st3.log, rfl⟩

theorem C2_amended_witness :
    (set_cell_value 1 1 initState 0 0 ("=1+2")).map (fun s => s.sheet 0 0) =
      some (cell.mk CELL_TYPE.eqn 0 (some ("=1+2"))) := by
  have h1 : (set_cell_value 1 1 initState 0 0 ("=1+2")).isSome = true := by decide
  obtain ⟨st', hst⟩ := Option.isSome_iff_exists.mp h1
  have h := C2_amended_formula_write_keeps_eqn_tag 1 1 initState 0 0 ("=1+2") 3 st'
    (by decide) (by decide) (by decide) hst
  rw [hst, Option.map_some', h.1]

/-- Claim C8: when the written text matches the formula grammar but
evaluation fails (any of the recorded failure modes, e.g. the
out-of-bounds reference `=Z99`), no error crosses the public boundary:
the write completes normally, the display notification for the written
cell — the final notification of the write — carries the literal marker
`"ERROR"`, and the cell's underlying stored type remains `str` (Text),
still holding the original input text. -/
theorem C8_failed_formula_displays_error_keeps_text (nr nc : ℕ) (st : SpreadState)
    (r c : ℕ) (text : String) (e : EvalErr) (st' : SpreadState)
    (hnum : is_valid_num text = false)
    (hform : is_valid_formula text = true)
    (herr : parse_and_calculate_formula nr nc
        (set_string_value (initialize_cell st r c) r c text).sheet text =
      EvalResult.err e)
    (h : set_cell_value nr nc st r c text = some st') :
    st'.sheet r c = cell.mk CELL_TYPE.str 0 (some text) ∧
    (∃ pre, st'.log = pre ++ [(r, c, ("ERROR"))]) := by
  have htext : ¬(text = ("")) := by
    intro he
    rw [he] at hform
    exact absurd hform (by decide)
  unfold set_cell_value at h
  rw [if_neg htext] at h
  simp only [hnum, hform, if_true, Bool.false_eq_true, if_false, herr] at h
  cases hrec : recalcAll nr nc (set_string_value (initialize_cell st r c) r c text) r c with
  | none => rw [hrec] at h; exact absurd h (by simp)
  | some st3 =>
    rw [hrec, Option.some.injEq] at h
    subst h
    constructor
    · rw [update_cell_display_sheet, recalcAll_sheet_at nr nc _ st3 r c hrec]
      simp [set_string_value, writeCell_same]
    · exact ⟨st3.log, rfl⟩

set_option maxRecDepth 100000 in
theorem C8_witness :
    (set_cell_value 2 2 initState 0 0 ("=Z99")).map
        (fun s => (s.sheet 0 0, s.log.getLast?)) =
      some (cell.mk CELL_TYPE.str 0 (some ("=Z99")), some (0, 0, ("ERROR"))) := by
  have h1 : (set_cell_value 2 2 initState 0 0 ("=Z99")).isSome = true := by decide
  obtain ⟨st', hst⟩ := Option.isSome_iff_exists.mp h1
  have h := C8_failed_formula_displays_error_keeps_text 2 2 initState 0 0 ("=Z99")
    EvalErr.outOfRange st' (by decide) (by decide) (by decide) hst
  obtain ⟨pre, hpre⟩ := h.2
  rw [hst, Option.map_some', h.1, hpre, List.getLast?_concat]

/-! ## Claim C7: the arity gate -/

/-- Claim C7: after the scan completes, evaluation succeeds exactly when
the number of collected operands equals the operator count plus 1, and
otherwise fails at the arity check (`model.c:300`); in particular the
trailing-operator formula `=A1+` and the missing-operator formula
`=A1 B2` both fail there (whenever their references are in range, so
that the scan itself completes). -/
theorem C7_arity_gate :
    (∀ (nr nc : ℕ) (sheet : Sheet) (f : String) (stack : List ℚ) (k : ℕ),
      is_valid_formula f = true →
      calcLoopF nr nc sheet (f.toList.length + 1) f.toList [] 0 = ScanOut.done stack k →
      (parse_and_calculate_formula nr nc sheet f = EvalResult.ok (sumDrain stack) ↔
        stack.length = k + 1) ∧
      (stack.length ≠ k + 1 →
        parse_and_calculate_formula nr nc sheet f = EvalResult.err EvalErr.arity)) ∧
    (∀ (nr nc : ℕ) (sheet : Sheet), 1 ≤ nr → 1 ≤ nc →
      parse_and_calculate_formula nr nc sheet ("=A1+") = EvalResult.err EvalErr.arity) ∧
    (∀ (nr nc : ℕ) (sheet : Sheet), 2 ≤ nr → 2 ≤ nc →
      parse_and_calculate_formula nr nc sheet ("=A1 B2") = EvalResult.err EvalErr.arity) := by
  refine ⟨?_, ?_, ?_⟩
  · intro nr nc sheet f stack k hform hscan
    have hred : parse_and_calculate_formula nr nc sheet f =
        if stack.length = k + 1 then EvalResult.ok (sumDrain stack)
        else EvalResult.err EvalErr.arity := by
      unfold parse_and_calculate_formula
      rw [hform, if_neg (by simp), hscan]
    rw [hred]
    refine ⟨⟨?_, ?_⟩, ?_⟩
    · by_cases hlen : stack.length = k + 1
      · intro _
        exact hlen
      · rw [if_neg hlen]
        intro habs
        exact absurd habs (by simp)
    · intro hlen
      rw [if_pos hlen]
    · intro hlen
      rw [if_neg hlen]
  · intro nr nc sheet h1 h2
    unfold parse_and_calculate_formula
    rw [show is_valid_formula ("=A1+") = true from by decide]
    simp +decide [calcLoopF, strtolM, digitsVal]
    rw [if_neg (show ¬(nr = 0 ∨ nc = 0) from by omega)]
    simp
  · intro nr nc sheet h1 h2
    unfold parse_and_calculate_formula
    rw [show is_valid_formula ("=A1 B2") = true from by decide]
    simp +decide [calcLoopF, strtolM, digitsVal]
    rw [if_neg (show ¬(nr = 0 ∨ nc = 0) from by omega)]
    rw [if_neg (show ¬(nr ≤ 1 ∨ nc ≤ 1) from by omega)]
    simp

theorem C7_witness :
    parse_and_calculate_formula 2 2 emptySheet ("=A1+") = EvalResult.err EvalErr.arity ∧
    parse_and_calculate_formula 2 2 emptySheet ("=A1 B2") = EvalResult.err EvalErr.arity :=
  ⟨C7_arity_gate.2.1 2 2 emptySheet (by norm_num) (by norm_num),
   C7_arity_gate.2.2 2 2 emptySheet (by norm_num) (by norm_num)⟩

/-! ## Claim C6: the numeric classification -/

/-- Counterexample to claim C6: the string `"5 "` is a well-formed
decimal by the claim's grammar (one digit, trailing whitespace allowed),
yet `is_valid_num` rejects it — the C loop hits the trailing blank after
`skip_whitespace` has only stripped *leading* whitespace. -/
theorem C6_counterexample_trailing_whitespace :
    claimDecimal ("5 ") = true ∧ is_valid_num ("5 ") = false := by
  decide

theorem ivnLoop_true_iff (l : List Char) : ∀ (hd hdot : Bool),
    ivnLoop l hd hdot = true ↔
      ((∀ c ∈ l, c.isDigit = true ∨ c = '.') ∧
        (l.filter (fun c => c = '.')).length + (if hdot = true then 1 else 0) ≤ 1 ∧
        (hd = true ∨ ∃ c ∈ l, c.isDigit = true)) := by
  induction l with
  | nil =>
    intro hd hdot
    cases hd <;> cases hdot <;> simp [ivnLoop]
  | cons a t ih =>
    intro hd hdot
    by_cases hcd : a.isDigit = true
    · have hadot : ¬(a = '.') := by
        intro he
        rw [he] at hcd
        exact absurd hcd (by decide)
      rw [ivnLoop, if_pos hcd, ih]
      simp [hcd, hadot]
    · by_cases hdot' : a = '.'
      · subst hdot'
        rw [ivnLoop, if_neg hcd, if_pos rfl]
        cases hdot with
        | true =>
          rw [if_pos rfl]
          simp
        | false =>
          rw [if_neg (by simp), ih]
          simp [hcd]
      · rw [ivnLoop, if_neg hcd, if_neg hdot']
        simp
        intro h
        rcases h with h | h
        · exact absurd h hcd
        · exact absurd h hdot'

/-- Claim C6 as amended: classification yields Numeric exactly for
strings of the shape — optional *leading* whitespace only (trailing or
embedded whitespace is rejected), then only digits and at most one
decimal point, with at least one digit; no sign, no exponent. -/
theorem C6_amended_numeric_classification (s : String) :
    is_valid_num s = leadingWsDecimal s := by
  rw [Bool.eq_iff_iff]
  unfold is_valid_num leadingWsDecimal
  rw [ivnLoop_true_iff]
  simp [skip_whitespace]

/-! ## Claim C9: lowercase letters invalidate a formula -/

theorem lower_not_space (c : Char) (h : islowerC c = true) : isspaceC c = false := by
  simp only [isspaceC, decide_eq_false_iff_not]
  rintro (rfl | rfl | rfl | rfl | rfl | rfl) <;> exact absurd h (by decide)

theorem mem_dropWhile (p : Char → Bool) (l : List Char) (c : Char)
    (hc : c ∈ l) (hp : p c = false) : c ∈ l.dropWhile p := by
  induction l with
  | nil => cases hc
  | cons a t ih =>
    rw [List.dropWhile_cons]
    split
    · rcases List.mem_cons.mp hc with rfl | hmem
      · rename_i ha
        rw [hp] at ha
        cases ha
      · exact ih hmem
    · exact hc

theorem ivfLoopF_lower_false : ∀ (fuel : ℕ) (l : List Char),
    (∃ c ∈ l, islowerC c = true) → ivfLoopF fuel l = false := by
  intro fuel
  induction fuel with
  | zero => intro l _; rfl
  | succ n ih =>
    intro l hl
    obtain ⟨c, hc, hlow⟩ := hl
    cases l with
    | nil => cases hc
    | cons a t =>
      have hcin : c ∈ skip_whitespace (a :: t) :=
        mem_dropWhile isspaceC (a :: t) c hc (lower_not_space c hlow)
      rw [ivfLoopF]
      cases hsw : skip_whitespace (a :: t) with
      | nil => rfl
      | cons d rest =>
        rw [hsw] at hcin
        show (if isalphaC d = true then if islowerC d = true then false else ivfLoopF n rest
              else if d.isDigit = true ∨ d = '.' ∨ d = '+' then ivfLoopF n rest
              else false) = false
        rcases List.mem_cons.mp hcin with rfl | hmem
        · have halpha : isalphaC c = true := by
            simp only [islowerC, decide_eq_true_eq] at hlow
            simp only [isalphaC, decide_eq_true_eq]
            right
            exact hlow
          rw [if_pos halpha, if_pos hlow]
        · by_cases hda : isalphaC d = true
          · rw [if_pos hda]
            by_cases hdl : islowerC d = true
            · rw [if_pos hdl]
            · rw [if_neg hdl]
              exact ih rest ⟨c, hmem, hlow⟩
          · rw [if_neg hda]
            by_cases hdd : (d.isDigit = true ∨ d = '.' ∨ d = '+')
            · rw [if_pos hdd]
              exact ih rest ⟨c, hmem, hlow⟩
            · rw [if_neg hdd]

theorem lowercase_invalidates (s : String) (c : Char)
    (hc : c ∈ s.toList) (hlow : islowerC c = true) : is_valid_formula s = false := by
  have hcin : c ∈ skip_whitespace s.toList :=
    mem_dropWhile isspaceC s.toList c hc (lower_not_space c hlow)
  unfold is_valid_formula
  split
  · rename_i rest heq
    rw [heq] at hcin
    rcases List.mem_cons.mp hcin with rfl | hmem
    · exact absurd hlow (by decide)
    · exact ivfLoopF_lower_false (rest.length + 1) rest ⟨c, hmem, hlow⟩
  · rfl

theorem is_valid_formula_no_lower (s : String) (hs : is_valid_formula s = true) :
    ∀ c ∈ s.toList, islowerC c = false := by
  intro c hc
  cases hx : islowerC c with
  | false => rfl
  | true =>
    rw [lowercase_invalidates s c hc hx] at hs
    cases hs

/-- Claim C9: a string containing a lowercase ASCII letter anywhere is
rejected by the formula grammar check (`is_valid_formula` inspects every
non-whitespace character and returns false on a lowercase letter, and a
lowercase letter can be neither the skipped whitespace nor the leading
`=`), and consequently such a string is never evaluated as a formula:
the evaluator's own re-validation fails before the scan starts. -/
theorem C9_lowercase_rejected (nr nc : ℕ) (sheet : Sheet) (s : String) (c : Char)
    (hc : c ∈ s.toList) (hlow : islowerC c = true) :
    is_valid_formula s = false ∧
    parse_and_calculate_formula nr nc sheet s = EvalResult.err EvalErr.invalidFormula := by
  have hvf : is_valid_formula s = false := lowercase_invalidates s c hc hlow
  refine ⟨hvf, ?_⟩
  unfold parse_and_calculate_formula
  rw [hvf, if_pos rfl]

theorem C9_witness :
    is_valid_formula ("=A1+b2") = false ∧
    parse_and_calculate_formula 1 1 emptySheet ("=A1+b2") =
      EvalResult.err EvalErr.invalidFormula :=
  C9_lowercase_rejected 1 1 emptySheet ("=A1+b2") 'b' (by decide) (by decide)

/-! ## Claim C5: evaluation computes the sum of the operands -/

theorem sign_split_sublist (l : List Char) : (sign_split l).2.Sublist l := by
  unfold sign_split
  split
  · exact List.sublist_cons_self _ _
  · exact List.sublist_cons_self _ _
  · exact List.Sublist.refl _

theorem fracPart_sublist (l : List Char) : (fracPart l).2.Sublist l := by
  unfold fracPart
  split
  · exact List.Sublist.trans (List.dropWhile_sublist _) (List.sublist_cons_self '.' _)
  · exact List.Sublist.refl _

theorem expScan_sublist (l : List Char) : (expScan l).2.Sublist l := by
  unfold expScan
  split
  · exact List.Sublist.refl _
  · rename_i c t
    dsimp only
    split
    · split
      · exact List.Sublist.refl _
      · exact List.Sublist.trans
          (List.Sublist.trans (List.dropWhile_sublist _) (sign_split_sublist t))
          (List.sublist_cons_self c t)
    · exact List.Sublist.refl _

theorem hexFracPart_sublist (l : List Char) : (hexFracPart l).2.Sublist l := by
  unfold hexFracPart
  split
  · exact List.Sublist.trans (List.dropWhile_sublist _) (List.sublist_cons_self '.' _)
  · exact List.Sublist.refl _

theorem binExpScan_sublist (l : List Char) : (binExpScan l).2.Sublist l := by
  unfold binExpScan
  split
  · exact List.Sublist.refl _
  · rename_i c t
    dsimp only
    split
    · split
      · exact List.Sublist.refl _
      · exact List.Sublist.trans
          (List.Sublist.trans (List.dropWhile_sublist _) (sign_split_sublist t))
          (List.sublist_cons_self c t)
    · exact List.Sublist.refl _

theorem strtodDec_sublist (neg : Bool) (l2 : List Char) (q : ℚ × List Char)
    (h : strtodDec neg l2 = some q) : q.2.Sublist l2 := by
  simp only [strtodDec] at h
  split at h
  · cases h
  · rw [Option.some.injEq] at h
    subst h
    exact List.Sublist.trans
      (List.Sublist.trans (expScan_sublist _) (fracPart_sublist _))
      (List.dropWhile_sublist _)

theorem strtodHex_sublist (neg : Bool) (t : List Char) (q : ℚ × List Char)
    (h : strtodHex neg t = some q) : q.2.Sublist t := by
  simp only [strtodHex] at h
  split at h
  · cases h
  · rw [Option.some.injEq] at h
    subst h
    exact List.Sublist.trans
      (List.Sublist.trans (binExpScan_sublist _) (hexFracPart_sublist _))
      (List.dropWhile_sublist _)

theorem strtodM_sublist (l : List Char) (q : ℚ × List Char)
    (h : strtodM l = some q) : q.2.Sublist l := by
  have hbase : ((sign_split (List.dropWhile isspaceC l)).2).Sublist l :=
    List.Sublist.trans (sign_split_sublist _) (List.dropWhile_sublist _)
  simp only [strtodM] at h
  split at h
  · rename_i x t heq
    split at h
    · cases hhex : strtodHex (sign_split (List.dropWhile isspaceC l)).1 t with
      | none =>
        rw [hhex] at h
        simp only at h
        exact List.Sublist.trans (strtodDec_sublist _ _ q h) hbase
      | some q1 =>
        rw [hhex] at h
        simp only [Option.some.injEq] at h
        subst h
        refine List.Sublist.trans (strtodHex_sublist _ t q1 hhex) ?_
        refine List.Sublist.trans ?_ hbase
        rw [heq]
        exact List.Sublist.trans (List.sublist_cons_self x t)
          (List.sublist_cons_self '0' (x :: t))
    · exact List.Sublist.trans (strtodDec_sublist _ _ q h) hbase
  · exact List.Sublist.trans (strtodDec_sublist _ _ q h) hbase

theorem calcLoop_to_specOp (nr nc : ℕ) (sheet : Sheet) :
    ∀ (fuel : ℕ) (l : List Char) (stack : List ℚ) (k : ℕ) (stack' : List ℚ) (k' : ℕ),
      (∀ ch ∈ l, islowerC ch = false) →
      calcLoopF nr nc sheet fuel l stack k = ScanOut.done stack' k' →
      ∃ ops, specOpF nr nc sheet fuel l = some ops ∧ stack' = ops.reverse ++ stack := by
  intro fuel
  induction fuel with
  | zero =>
    intro l stack k stack' k' _ h
    rw [calcLoopF] at h
    cases h
  | succ n ih =>
    intro l stack k stack' k' hnl h
    cases l with
    | nil =>
      rw [calcLoopF] at h
      injection h with h1 h2
      subst h1
      exact ⟨[], rfl, by simp⟩
    | cons c rest =>
      simp only [calcLoopF] at h
      simp only [specOpF]
      by_cases h1 : (c = '=' ∨ c = ' ')
      · rw [if_pos h1] at h
        rw [if_pos h1]
        exact ih rest stack k stack' k' (fun ch hch => hnl ch (List.mem_cons_of_mem c hch)) h
      · rw [if_neg h1] at h
        rw [if_neg h1]
        by_cases h2 : c = '+'
        · rw [if_pos h2] at h
          rw [if_pos h2]
          exact ih rest stack (k + 1) stack' k'
            (fun ch hch => hnl ch (List.mem_cons_of_mem c hch)) h
        · rw [if_neg h2] at h
          rw [if_neg h2]
          by_cases h3 : isalphaC c = true
          · rw [if_pos h3] at h
            have hcl : islowerC c = false := hnl c (List.mem_cons_self c rest)
            have hup : ('A' ≤ c ∧ c ≤ 'Z') := by
              simp only [isalphaC, decide_eq_true_eq] at h3
              rcases h3 with hu | hl
              · exact hu
              · exfalso
                have hlt : islowerC c = true := by
                  simp only [islowerC, decide_eq_true_eq]
                  exact hl
                rw [hlt] at hcl
                cases hcl
            rw [if_pos hup]
            cases rest with
            | nil => simp at h
            | cons d rest2 =>
              by_cases hd : d.isDigit = true
              · simp only [hd, if_true, strtolM, List.takeWhile_cons, List.dropWhile_cons,
                  Nat.cast_ofNat, show ('A').toNat = 65 from rfl] at h
                dsimp only
                simp only [List.takeWhile_cons, List.dropWhile_cons, hd, if_true,
                  show ('A').toNat = 65 from rfl]
                split at h
                · exact ScanOut.noConfusion h
                · rename_i hbnd
                  push_neg at hbnd
                  obtain ⟨hb1, hb2, hb3, hb4⟩ := hbnd
                  have hA : 65 ≤ c.toNat := hup.1
                  have hn1 : 1 ≤ digitsVal (d :: List.takeWhile Char.isDigit rest2) := by
                    omega
                  have hrow : ((digitsVal (d :: List.takeWhile Char.isDigit rest2) : ℤ) - 1).toNat =
                      digitsVal (d :: List.takeWhile Char.isDigit rest2) - 1 := by
                    omega
                  have hcol : (((c.toNat : ℤ)) - (65 : ℤ)).toNat = c.toNat - 65 := by
                    omega
                  rw [hrow, hcol] at h
                  have hmem : ∀ ch ∈ List.dropWhile Char.isDigit rest2, islowerC ch = false := by
                    intro ch hch
                    exact hnl ch (List.mem_cons_of_mem c (List.mem_cons_of_mem d
                      ((List.dropWhile_sublist Char.isDigit).subset hch)))
                  obtain ⟨ops, hops, hstk⟩ := ih (List.dropWhile Char.isDigit rest2)
                    ((sheet (digitsVal (d :: List.takeWhile Char.isDigit rest2) - 1)
                        (c.toNat - 65)).numVal :: stack) k stack' k' hmem h
                  rw [if_neg (by simp)]
                  have hguard : 1 ≤ digitsVal (d :: List.takeWhile Char.isDigit rest2) ∧
                      digitsVal (d :: List.takeWhile Char.isDigit rest2) - 1 < nr ∧
                      c.toNat - 65 < nc := by
                    refine ⟨hn1, by omega, by omega⟩
                  rw [if_pos hguard, hops]
                  refine ⟨_ :: ops, rfl, ?_⟩
                  rw [hstk]
                  simp
              · simp [hd] at h
          · rw [if_neg h3] at h
            have hnup : ¬('A' ≤ c ∧ c ≤ 'Z') := by
              intro hu
              apply h3
              simp only [isalphaC, decide_eq_true_eq]
              left
              exact hu
            rw [if_neg hnup]
            by_cases h4 : (c.isDigit = true ∨ c = '.')
            · rw [if_pos h4] at h
              rw [if_pos h4]
              cases hst : strtodM (c :: rest) with
              | none =>
                simp [hst] at h
              | some q =>
                simp only [hst] at h ⊢
                obtain ⟨ops, hops, hstk⟩ := ih q.2 (q.1 :: stack) k stack' k'
                  (fun ch hch => hnl ch ((strtodM_sublist _ q hst).subset hch)) h
                simp only [hops]
                refine ⟨q.1 :: ops, rfl, ?_⟩
                rw [hstk]
                simp
            · rw [if_neg h4] at h
              simp at h

/-- Counterexample to claim C5: `=1E2` is syntactically valid (it
passes `is_valid_formula`, the formula grammar of spec 4.1 that 4.2
declares already applied), and its evaluation succeeds — the scan hands
`1E2` to `strtod`, which consumes the exponent and returns 100 — yet
under the claim's own operand reading (`claimOperands`: decimal literals
and `<COL><ROW>` references) the operands of `=1E2` are the decimal
literal `1` and cell reference `E2` (value 0 on an empty grid), whose
sum is 1 ≠ 100.  The final conjunct shows the same happens with
`strtod`'s C99 hexadecimal form: `=0X1A` evaluates to 26 through the
scan's digit branch. -/
theorem C5_counterexample_literal_not_decimal :
    is_valid_formula ("=1E2") = true ∧
    parse_and_calculate_formula 2 5 emptySheet ("=1E2") = EvalResult.ok 100 ∧
    claimOperands 2 5 emptySheet ("=1E2") = some [(1 : ℚ), 0] ∧
    (100 : ℚ) ≠ [(1 : ℚ), 0].sum ∧
    parse_and_calculate_formula 1 1 emptySheet ("=0X1A") = EvalResult.ok 26 := by
  refine ⟨by decide, by decide, by decide, ?_, by decide⟩
  rw [List.sum_cons, List.sum_cons, List.sum_nil]
  norm_num

/-- Claim C5 as amended: whenever formula evaluation succeeds, the
returned value is the sum of the formula's operands (`specOpF`), where a
literal token contributes the value `strtod` parses — its decimal value
for a plain decimal literal, but `strtod`'s exponent form (`1E2` = 100)
and C99 hexadecimal form (`0X1A` = 26) are also accepted as single
literals — and each cell reference — one uppercase letter `A..Z` naming
column `0..25`, then a 1-based digit run naming the row after
subtracting 1 — contributes the referenced cell's current numeric value
`numVal`, not its display text. -/
theorem C5_amended_eval_sums_strtod_operands (nr nc : ℕ) (sheet : Sheet) (f : String) (r : ℚ)
    (h : parse_and_calculate_formula nr nc sheet f = EvalResult.ok r) :
    ∃ ops, specOperands nr nc sheet f = some ops ∧ r = ops.sum := by
  unfold parse_and_calculate_formula at h
  by_cases hform : is_valid_formula f = true
  · rw [hform, if_neg (by simp)] at h
    cases hscan : calcLoopF nr nc sheet (f.toList.length + 1) f.toList [] 0 with
    | done stack k =>
      simp only [hscan] at h
      by_cases hlen : stack.length = k + 1
      · rw [if_pos hlen] at h
        injection h with hr
        obtain ⟨ops, hops, hstk⟩ := calcLoop_to_specOp nr nc sheet
          (f.toList.length + 1) f.toList [] 0 stack k
          (is_valid_formula_no_lower f hform) hscan
        refine ⟨ops, hops, ?_⟩
        rw [← hr, hstk, sumDrain_eq_sum]
        simp [List.sum_reverse]
      · rw [if_neg hlen] at h
        cases h
    | err e =>
      simp only [hscan] at h
      exact EvalResult.noConfusion h
    | hang =>
      simp only [hscan] at h
      exact EvalResult.noConfusion h
    | fuelOut =>
      simp only [hscan] at h
      exact EvalResult.noConfusion h
  · rw [if_pos (by simpa using hform)] at h
    cases h

theorem C5_witness :
    parse_and_calculate_formula 1 1 exSheet5 ("=A1+2") = EvalResult.ok 7 ∧
    specOperands 1 1 exSheet5 ("=A1+2") ≠ Option.none := by
  constructor
  · decide
  · obtain ⟨ops, hops, hsum⟩ :=
      C5_amended_eval_sums_strtod_operands 1 1 exSheet5 ("=A1+2") 7 (by decide)
    rw [hops]
    simp
